import Mathlib

/-!
Shallow embedding of the filesdb crawl pipeline (src/filesdb/get_files.py,
src/filesdb/guess_imports.py, src/filesdb/utils.py) and proofs about it.

Conventions of the embedding:
* Byte streams are `List Nat`; `fp.read(n)` on a regular stream returns
  `min n remaining` bytes, i.e. `List.take n`.
* The SHA-1 / SHA-256 digest primitives of `hashlib` are abstract parameters
  `sha1 sha256 : List Nat → String`; what the code controls is which bytes
  are fed to them, and that is what we model.
* SQL tables are Lean lists of structures; a transaction either commits its
  staged inserts (appended to the table) or rolls them back (discarded).
* Python `str.lower` is modelled by ASCII `String.toLower` (archive member
  names and project names are ASCII in this pipeline).
-/

deriving instance DecidableEq for Except

namespace FilesDB

/-- Substring search over character lists: does `sub` occur contiguously? -/
def listContainsSub (sub : List Char) : List Char → Bool
  | [] => List.isPrefixOf sub []
  | c :: cs => List.isPrefixOf sub (c :: cs) || listContainsSub sub cs

/-- Python `sub in s` on strings: substring containment. -/
def containsSub (sub s : String) : Bool :=
  listContainsSub sub.toList s.toList

/-- Python `s.startswith(pre)`. -/
def strStartsWith (s pre : String) : Bool :=
  List.isPrefixOf pre.toList s.toList

/-- Python `s.endswith(post)`. -/
def strEndsWith (s post : String) : Bool :=
  List.isPrefixOf post.toList.reverse s.toList.reverse

/-- Python `s.lower()` (the names this pipeline lowers are ASCII). -/
def pyLower (s : String) : String :=
  String.mk (s.toList.map Char.toLower)

/-- Python `s.replace('-', '_')`: a single-character replacement is a map. -/
def dashToUnderscore (s : String) : String :=
  String.mk (s.toList.map (fun c => if c = '-' then '_' else c))

/-- get_files.IGNORED_FILES. -/
def IGNORED_FILES : List String := ["PKG-INFO", "MANIFEST.in", "setup.cfg"]

/-- get_files.check_top_level: both names lowered with `-` mapped to `_`,
then a starts-with test. -/
def check_top_level (filename project_name : String) : Bool :=
  strStartsWith (dashToUnderscore (pyLower filename)) (dashToUnderscore (pyLower project_name))

/-- The chunked read loop of get_files.process_file (lines 45-52): read 4096
bytes at a time, feed each chunk to both digests and count its length, stop
after a short chunk.  The loop shrinks the stream by 4096 bytes per
iteration, so the structural fuel `fp.length + 1` supplied by `hashLoop` is
never exhausted (`hashLoopGo_eq` below). -/
def hashLoopGo : Nat → List Nat → Nat × List Nat
  | 0, fp => ((fp.take 4096).length, fp.take 4096)
  | fuel + 1, fp =>
    if (fp.take 4096).length = 4096 then
      (4096 + (hashLoopGo fuel (fp.drop 4096)).1,
        fp.take 4096 ++ (hashLoopGo fuel (fp.drop 4096)).2)
    else
      ((fp.take 4096).length, fp.take 4096)

/-- The loop of process_file: returns (size, bytes fed to both digests). -/
def hashLoop (fp : List Nat) : Nat × List Nat :=
  hashLoopGo (fp.length + 1) fp

/-! ## Data model (src/filesdb/database.py) -/

/-- One row of the `files` table (database.py lines 60-68), as inserted by
get_files.process_file. -/
structure FileRow where
  download_name : String
  name : String
  size_bytes : Nat
  hash_sha1 : String
  hash_sha256 : String
deriving DecidableEq, Repr

/-- One row of the `downloads` table (database.py lines 37-58), restricted to
the columns the crawl pipeline reads or writes. -/
structure DownloadRow where
  project_name : String
  project_version : String
  name : String
  url : String
  type : String
  python_version : Option String
  indexed : Option String
deriving DecidableEq, Repr

/-- One row of the `python_imports` table (database.py lines 78-87). -/
structure ImportRow where
  project_name : String
  deduced_from_project_version : String
  deduced_from_download_name : String
  import_path : String
deriving DecidableEq, Repr

/-- The mutable store as seen by the crawl pipeline. -/
structure DB where
  downloads : List DownloadRow
  files : List FileRow
  python_imports : List ImportRow
deriving DecidableEq, Repr

/-- File rows owned by one download. -/
def filesFor (db : DB) (dn : String) : List FileRow :=
  db.files.filter (fun f => f.download_name = dn)

/-! ## Artifact selector (get_files.process_versions lines 184-217) -/

/-- A download dict as used by process_versions: keys are whatever columns the
SELECT produced.  `python_version = none` models the key being absent. -/
structure DownloadDict where
  name : String
  url : String
  type : String
  python_version : Option String
deriving DecidableEq, Repr

/-- Lines 185-194: `select([downloads.c.name, downloads.c.url,
downloads.c.type])` followed by `dict(row)`.  The `python_version` column is
not selected, so the key is never present in the resulting dict. -/
def fetchDownloadDict (r : DownloadRow) : DownloadDict :=
  { name := r.name, url := r.url, type := r.type, python_version := none }

/-- The `_filesdb_priority` assignment (lines 199-216).  The first branch is
Python's `'python_version' not in download`. -/
def downloadPriority (d : DownloadDict) : Nat :=
  if d.type = "bdist_wheel" then
    match d.python_version with
    | none => 5
    | some tag =>
      if containsSub "py2" tag then 6
      else if containsSub "py3" tag then 7
      else if containsSub "cp" tag then 1
      else 4
  else if d.type = "bdist_egg" then 3
  else if d.type = "sdist" then 2
  else 0

/-- Helper for Python `max(xs, key=f)`: fold that keeps the first element with
the strictly greatest key. -/
def pyMaxGo (f : α → Nat) (best : α) : List α → α
  | [] => best
  | x :: xs => if f x > f best then pyMaxGo f x xs else pyMaxGo f best xs

/-- Python `max(xs, key=f)`; `none` when `xs` is empty (where Python raises,
which the callers here never reach). -/
def pyMaxBy (f : α → Nat) : List α → Option α
  | [] => none
  | x :: xs => some (pyMaxGo f x xs)

/-! ## Archive introspection (get_files.process_archive) -/

/-- A container decode failure: exactly the exceptions caught at
get_files.py lines 237-240. -/
inductive DecodeErr where
  | tarError
  | badZipFile
  | eofError
deriving DecidableEq, Repr

/-- One zip entry: its name and the bytes `arch.open(name)` yields. -/
structure ZipMember where
  name : String
  content : List Nat
deriving DecidableEq, Repr

/-- One tar entry: its name, whether `member.isfile()`, and its bytes. -/
structure TarMember where
  name : String
  isfile : Bool
  content : List Nat
deriving DecidableEq, Repr

/-- The bytes sitting in the temporary file, as the container libraries see
them: a decodable zip, a decodable tar, or bytes on which the decoder
raises one of the caught exceptions. -/
inductive ArchiveData where
  | zipData (members : List ZipMember)
  | tarData (members : List TarMember)
  | corrupt (e : DecodeErr)
deriving DecidableEq, Repr

/-- Python `set(...)` iteration, modelled as first-occurrence order. -/
def pyDedupGo (seen : List String) : List String → List String
  | [] => []
  | x :: xs => if seen.contains x then pyDedupGo seen xs else x :: pyDedupGo (x :: seen) xs

def pyDedup (l : List String) : List String := pyDedupGo [] l

/-- `arch.open(member)` by name: the bytes of the entry bearing that name. -/
def zipLookup (ms : List ZipMember) (n : String) : List Nat :=
  match ms.find? (fun m => m.name = n) with
  | some m => m.content
  | none => []

/-- The last tar member bearing a given name. -/
def tarLastWith (ms : List TarMember) (n : String) : TarMember :=
  match (ms.filter (fun m => m.name = n)).getLast? with
  | some m => m
  | none => { name := n, isfile := false, content := [] }

/-- Python `{m.name: m for m in arch.getmembers()}.values()` (line 121):
keys in first-occurrence order, a repeated key keeps the last value. -/
def tarDedup (ms : List TarMember) : List TarMember :=
  (pyDedup (ms.map (fun m => m.name))).map (tarLastWith ms)

/-- Python `idx = member.index('/'); name = member[idx+1:]`; `none` models
the ValueError raised when there is no '/'. -/
def dropThroughSlash (m : String) : Option String :=
  match m.toList.dropWhile (fun c => c ≠ '/') with
  | [] => none
  | _ :: rest => some (String.mk rest)

/-- get_files.process_file: hash the member's stream chunk by chunk and build
the row inserted into `files`.  The utf-8 encode/decode with 'replace'
(line 55) is the identity on well-formed strings, which Lean strings are. -/
def process_file (sha1 sha256 : List Nat → String) (download_name filename : String)
    (fp : List Nat) : FileRow :=
  { download_name := download_name
    name := filename
    size_bytes := (hashLoop fp).1
    hash_sha1 := sha1 (hashLoop fp).2
    hash_sha256 := sha256 (hashLoop fp).2 }

/-- The member filter of the flat-zip (`.whl`/`.egg`) branch, lines 76-81. -/
def whlExcluded (m : String) : Bool :=
  containsSub ".dist-info/" m || strStartsWith m "EGG-INFO" || strEndsWith m ".dist-info"
    || IGNORED_FILES.contains m

/-- The `.whl`/`.egg` member loop (lines 75-85): skip excluded members,
stage one `files` insert per surviving member under its full name. -/
def whlLoop (pf : String → List Nat → FileRow) (lookup : String → List Nat) :
    List String → List FileRow → List FileRow
  | [], acc => acc
  | m :: rest, acc =>
    if whlExcluded m then whlLoop pf lookup rest acc
    else whlLoop pf lookup rest (acc ++ [pf m (lookup m)])

/-- The egg-info / ignored-filename skip of the `.zip` branch (lines 98-102). -/
def zipSkipMember (m : String) : Bool :=
  containsSub ".egg-info/" m || strEndsWith m ".egg-info" || IGNORED_FILES.contains m

/-- The egg-info / PKG-INFO / ignored-filename skip of the tar branch
(lines 132-137). -/
def tarSkipMember (n : String) : Bool :=
  containsSub ".egg-info/" n || strEndsWith n ".egg-info" || n = "PKG-INFO"
    || IGNORED_FILES.contains n

/-- The `.zip` (sdist) member loop (lines 88-118).  A `some` first component
is the early `return 'wrong structure'`; the accumulator carries the file
inserts already staged in the enclosing transaction. -/
def sdistZipLoop (pf : String → List Nat → FileRow) (lookup : String → List Nat)
    (project_name : String) :
    List String → List FileRow → Option String × List FileRow
  | [], acc => (none, acc)
  | m :: rest, acc =>
    if strEndsWith m "/" then sdistZipLoop pf lookup project_name rest acc
    else if !check_top_level m project_name then (some "wrong structure", acc)
    else if zipSkipMember m then
      sdistZipLoop pf lookup project_name rest acc
    else
      match dropThroughSlash m with
      | none => (some "wrong structure", acc)
      | some name =>
        if IGNORED_FILES.contains name then sdistZipLoop pf lookup project_name rest acc
        else sdistZipLoop pf lookup project_name rest (acc ++ [pf name (lookup m)])

/-- The tarball member loop (lines 122-153); same shape as the `.zip` loop
plus the non-file skip and the extra exact `PKG-INFO` exclusion. -/
def tarLoop (pf : String → List Nat → FileRow) (project_name : String) :
    List TarMember → List FileRow → Option String × List FileRow
  | [], acc => (none, acc)
  | m :: rest, acc =>
    if !m.isfile then tarLoop pf project_name rest acc
    else if !check_top_level m.name project_name then (some "wrong structure", acc)
    else if tarSkipMember m.name then
      tarLoop pf project_name rest acc
    else
      match dropThroughSlash m.name with
      | none => (some "wrong structure", acc)
      | some name =>
        if IGNORED_FILES.contains name then tarLoop pf project_name rest acc
        else tarLoop pf project_name rest (acc ++ [pf name m.content])

/-- A member meeting the (amended) WrongStructure conditions in sdist-zip
mode: non-directory and either failing the top-level check, or not skipped
by the egg-info/ignored filter and lacking a '/' separator. -/
def zipOffender (project m : String) : Bool :=
  !strEndsWith m "/" &&
    (!check_top_level m project
      || (!zipSkipMember m && (dropThroughSlash m).isNone))

/-- A member meeting the (amended) WrongStructure conditions in tarball
mode. -/
def tarOffender (project : String) (m : TarMember) : Bool :=
  m.isfile &&
    (!check_top_level m.name project
      || (!tarSkipMember m.name && (dropThroughSlash m.name).isNone))

/-- Lines 155-158 applied to a completed loop: an early result string stands;
otherwise zero inserts is 'no files' and anything else is 'yes'. -/
def wrapResult (out : Option String × List FileRow) : String × List FileRow :=
  match out with
  | (some r, staged) => (r, staged)
  | (none, staged) => (if staged.length = 0 then "no files" else "yes", staged)

/-- get_files.process_archive: dispatch on the filename suffix, enumerate and
filter the members, stage one `files` insert per processed member, and return
the result string — or raise (`.error`) a decode error for the caller to
catch.  A zip opened by tarfile raises TarError and vice versa. -/
def process_archive (sha1 sha256 : List Nat → String) (project_name : String)
    (download_name filename : String) (arch : ArchiveData) :
    Except DecodeErr (String × List FileRow) :=
  let pf := process_file sha1 sha256 download_name
  if strEndsWith filename ".whl" || strEndsWith filename ".egg" then
    match arch with
    | .zipData ms =>
      .ok (wrapResult (none, whlLoop pf (zipLookup ms) (pyDedup (ms.map (fun m => m.name))) []))
    | .tarData _ => .error .badZipFile
    | .corrupt e => .error e
  else if strEndsWith filename ".zip" then
    match arch with
    | .zipData ms =>
      .ok (wrapResult (sdistZipLoop pf (zipLookup ms) project_name
        (pyDedup (ms.map (fun m => m.name))) []))
    | .tarData _ => .error .badZipFile
    | .corrupt e => .error e
  else
    match arch with
    | .tarData ms => .ok (wrapResult (tarLoop pf project_name (tarDedup ms) []))
    | .zipData _ => .error .tarError
    | .corrupt e => .error e

/-! ## Filename sanitizing (utils.secure_filename, POSIX branch) -/

/-- Characters kept by the complement of utils._not_ascii_re. -/
def asciiKeep (s : String) : String :=
  String.mk (s.toList.filter (fun c => c.isAlphanum || c = '_' || c = '.' || c = '-'))

/-- Index of the last '.' in a character list. -/
def lastDotIdx : List Char → Option Nat
  | [] => none
  | c :: cs =>
    match lastDotIdx cs with
    | some i => some (i + 1)
    | none => if c = '.' then some 0 else none

/-- os.path.splitext on a basename: split at the last '.', unless every
character before it is itself a '.'. -/
def splitext (p : String) : String × String :=
  match lastDotIdx p.toList with
  | none => (p, "")
  | some i =>
    if (p.toList.take i).any (fun c => c ≠ '.') then
      (String.mk (p.toList.take i), String.mk (p.toList.drop i))
    else
      (p, "")

/-- Python str.strip(chars): drop the given characters from both ends. -/
def pyStrip (cut : List Char) (s : String) : String :=
  String.mk (((s.toList.dropWhile (fun c => cut.contains c)).reverse.dropWhile
    (fun c => cut.contains c)).reverse)

/-- utils.secure_filename with is_windows = False: strip directory
components, split off the extension, truncate the stem to 20 characters,
keep only `[A-Za-z0-9_.-]`, strip '.' and '_' from the stem's ends, fall
back to "_" for an empty stem. -/
def secure_filename (name : String) : String :=
  let base := String.mk (name.toList.reverse.takeWhile (fun c => c ≠ '/')).reverse
  let se := splitext base
  let stem := String.mk (se.1.toList.take 20)
  let stem := pyStrip ['.', '_'] (asciiKeep stem)
  let stem := if stem = "" then "_" else stem
  stem ++ asciiKeep se.2

/-! ## The crawl unit's transactional tail (get_files.py lines 231-258) -/

/-- Lines 253-258: `UPDATE downloads SET indexed = :result WHERE project_name
= :project AND name = :name`. -/
def markIndexed (downloads : List DownloadRow) (project download_name result : String) :
    List DownloadRow :=
  downloads.map (fun d =>
    if d.project_name = project && d.name = download_name then
      { d with indexed := some result }
    else d)

/-- The result string recorded for a download: the archive outcome, with the
three decode exceptions caught and mapped to "bad archive" (lines 235-242). -/
def crawlResult (sha1 sha256 : List Nat → String) (project_name download_name filename : String)
    (arch : ArchiveData) : String :=
  match process_archive sha1 sha256 project_name download_name filename arch with
  | .error _ => "bad archive"
  | .ok rs => rs.1

/-- Lines 231-258: open a transaction, run process_archive with the decode
exceptions caught; when the result is not "yes" roll the transaction back —
the staged file inserts are discarded — and open a fresh one; record the
result in downloads.indexed and commit. -/
def crawlCommit (sha1 sha256 : List Nat → String) (db : DB) (project_name : String)
    (download : DownloadDict) (filename : String) (arch : ArchiveData) : DB :=
  match process_archive sha1 sha256 project_name download.name filename arch with
  | .error _ =>
    { db with downloads := markIndexed db.downloads project_name download.name "bad archive" }
  | .ok (result, staged) =>
    { db with
      files := if result = "yes" then db.files ++ staged else db.files
      downloads := markIndexed db.downloads project_name download.name result }

/-! ## The crawl unit (get_files.process_versions) -/

/-- `max(versions, key=parse_version)` with the pkg_resources comparator
abstracted into a key function; "" for the empty list, which the callers
(iter_project_versions) never produce. -/
def latest_version (key : String → Nat) (versions : List String) : String :=
  match pyMaxBy key versions with
  | some v => v
  | none => ""

/-- The EXISTS subquery of lines 167-179: some download of (project, version)
has a non-null indexed status (`indexed NOT NULL`). -/
def isIndexed (db : DB) (project version : String) : Bool :=
  db.downloads.any (fun d =>
    d.project_name = project && d.project_version = version && d.indexed.isSome)

/-- Lines 184-194: the download dicts listed for (project, version): only
the name, url and type columns are selected. -/
def listDownloads (db : DB) (project version : String) : List DownloadDict :=
  (db.downloads.filter (fun d =>
    d.project_name = project && d.project_version = version)).map fetchDownloadDict

/-- get_files.process_versions (one crawl unit), as a function of the initial
store and of the bytes the network returns for each URL (`fetch`): the
idempotency check and download listing (lines 165-196), artifact selection
(lines 198-217), download to a temporary file named
`secure_filename(download['name'])` (lines 219-229 — a non-200 response only
logs and keeps whatever bytes arrived, which `fetch` subsumes), and the
transactional commit (lines 231-258, `crawlCommit`). -/
def process_versions (sha1 sha256 : List Nat → String) (key : String → Nat)
    (fetch : String → ArchiveData) (project_name : String) (versions : List String)
    (db : DB) : DB :=
  let latest := latest_version key versions
  if isIndexed db project_name latest then
    db
  else
    match pyMaxBy downloadPriority (listDownloads db project_name latest) with
    | none => db
    | some download =>
      crawlCommit sha1 sha256 db project_name download (secure_filename download.name)
        (fetch download.url)

/-! ## Import guessing (src/filesdb/guess_imports.py) -/

/-- Python `filename[:-3]`. -/
def dropLast3 (s : String) : String :=
  String.mk (s.toList.take (s.toList.length - 3))

/-- The per-file rule of guess_imports (lines 77-86): a `.py` file other than
test.py / tests.py / setup.py contributes the first path segment when nested,
else the filename without its ".py" suffix. -/
def importNameOf (filename : String) : Option String :=
  if strEndsWith filename ".py"
      && !(["test.py", "tests.py", "setup.py"].contains filename) then
    if filename.toList.contains '/' then
      some (String.mk (filename.toList.takeWhile (fun c => c ≠ '/')))
    else
      some (dropLast3 filename)
  else
    none

/-- Python `set.add` on a list model of a set: append when absent. -/
def setAdd (l : List String) (x : String) : List String :=
  if l.contains x then l else l ++ [x]

/-- The `import_names` set built by the file loop (lines 76-86). -/
def import_names (files : List String) : List String :=
  files.foldl (fun acc f =>
    match importNameOf f with
    | some n => setAdd acc n
    | none => acc) []

/-- The ImportGuess rows of one project. -/
def guessRowsFor (db : DB) (project : String) : List ImportRow :=
  db.python_imports.filter (fun r => r.project_name = project)

/-- The skip query (guess_imports lines 37-45): prior rows of the project
deduced from the given version. -/
def prevImportRows (db : DB) (project latest : String) : List ImportRow :=
  db.python_imports.filter (fun r =>
    r.project_name = project && r.deduced_from_project_version = latest)

/-- Lines 59-64: the first download of (project, latest) with indexed='yes'. -/
def guessDownload (db : DB) (project latest : String) : Option DownloadRow :=
  (db.downloads.filter (fun d =>
    d.project_name = project && d.project_version = latest
      && d.indexed = some "yes")).head?

/-- guess_imports.process_versions, store effect only (the `stats` counters
touch no table).  Skip when rows deduced from the latest version already
exist; otherwise find an indexed download, derive the guess set from its
file names, and in one transaction delete every prior row of the project and
insert the new rows — a single sentinel row with import_path = "" when the
set is empty (lines 97-131). -/
def guess_process_versions (key : String → Nat) (project_name : String)
    (versions : List String) (db : DB) : DB :=
  let latest := latest_version key versions
  if prevImportRows db project_name latest ≠ [] then db
  else
    match guessDownload db project_name latest with
    | none => db
    | some download =>
      let files := (db.files.filter (fun f => f.download_name = download.name)).map
        (fun f => f.name)
      let names := import_names files
      let kept := db.python_imports.filter (fun r => r.project_name ≠ project_name)
      let inserted :=
        if names ≠ [] then
          names.map (fun n =>
            { project_name := project_name
              deduced_from_project_version := latest
              deduced_from_download_name := download.name
              import_path := n : ImportRow })
        else
          [{ project_name := project_name
             deduced_from_project_version := latest
             deduced_from_download_name := download.name
             import_path := "" : ImportRow }]
      { db with python_imports := kept ++ inserted }

/-! ## Retry and the bounded scheduler (utils.retry, get_files.amain) -/

/-- utils.retry: the first `retries - 1` calls are guarded — an exception is
logged and, after a 5-second sleep, the next attempt runs — and the final
call's outcome is returned unguarded, so its exception propagates.
`attempt i` is the outcome of the i-th call of the wrapped coroutine. -/
def retryGo {E A : Type} (attempt : Nat → Except E A) : Nat → Nat → Except E A
  | i, 0 => attempt i
  | i, Nat.succ k =>
    match attempt i with
    | .ok a => .ok a
    | .error _ => retryGo attempt (i + 1) k

/-- `@retry(retries, logger)` applied to a coroutine. -/
def retryCall {E A : Type} (retries : Nat) (attempt : Nat → Except E A) : Except E A :=
  retryGo attempt 0 (retries - 1)

/-- The completion loop of get_files.amain (lines 330-343), abstracted over
the order in which the event loop completes tasks: each completed unit is
polled with `task.result()`, which re-raises that unit's exception out of
amain; a successful poll increments done_projects.  `.ok n` means the loop
drained the backlog having recorded n units; `.error e` means the loop
aborted with the exception. -/
def schedulerPoll {E : Type} : List (Except E Unit) → Except E Nat
  | [] => .ok 0
  | .ok _ :: rest =>
    match schedulerPoll rest with
    | .ok n => .ok (n + 1)
    | .error e => .error e
  | .error e :: _ => .error e

/-! ## Helper lemmas -/

theorem hashLoopGo_eq (fuel : Nat) (fp : List Nat) (hfuel : fp.length < fuel) :
    hashLoopGo fuel fp = (fp.length, fp) := by
  induction fuel generalizing fp with
  | zero => omega
  | succ k ih =>
    rw [hashLoopGo]
    by_cases h : (fp.take 4096).length = 4096
    · have h4 : 4096 ≤ fp.length := by
        simp only [List.length_take] at h
        omega
      have hd : (fp.drop 4096).length < k := by
        simp only [List.length_drop]
        omega
      rw [if_pos h, ih (fp.drop 4096) hd]
      simp only [List.length_drop, List.take_append_drop]
      have : 4096 + (fp.length - 4096) = fp.length := by omega
      rw [this]
    · have hlt : fp.length < 4096 := by
        simp only [List.length_take] at h
        omega
      rw [if_neg h]
      simp [List.take_of_length_le (le_of_lt hlt)]

/-- The chunked loop consumes exactly the whole stream: the byte count is the
stream's length and the digests see exactly the stream's bytes. -/
theorem hashLoop_eq (fp : List Nat) : hashLoop fp = (fp.length, fp) :=
  hashLoopGo_eq (fp.length + 1) fp (Nat.lt_succ_self _)

theorem pyMaxGo_mem (f : α → Nat) (best : α) (l : List α) :
    pyMaxGo f best l = best ∨ pyMaxGo f best l ∈ l := by
  induction l generalizing best with
  | nil => exact Or.inl rfl
  | cons x xs ih =>
    rw [pyMaxGo]
    by_cases h : f x > f best
    · rw [if_pos h]
      rcases ih x with h' | h'
      · exact Or.inr (by rw [h']; exact List.mem_cons_self x xs)
      · exact Or.inr (List.mem_cons_of_mem x h')
    · rw [if_neg h]
      rcases ih best with h' | h'
      · exact Or.inl h'
      · exact Or.inr (List.mem_cons_of_mem x h')

theorem pyMaxBy_mem (f : α → Nat) (l : List α) (x : α) (h : pyMaxBy f l = some x) :
    x ∈ l := by
  cases l with
  | nil => simp [pyMaxBy] at h
  | cons y ys =>
    simp only [pyMaxBy, Option.some.injEq] at h
    rcases pyMaxGo_mem f y ys with h' | h'
    · rw [← h, h']
      exact List.mem_cons_self y ys
    · rw [← h]
      exact List.mem_cons_of_mem y h'

theorem process_file_eq (sha1 sha256 : List Nat → String) (dn fn : String) (fp : List Nat) :
    process_file sha1 sha256 dn fn fp
      = { download_name := dn, name := fn, size_bytes := fp.length
          hash_sha1 := sha1 fp, hash_sha256 := sha256 fp } := by
  simp [process_file, hashLoop_eq]

theorem whlLoop_eq (pf : String → List Nat → FileRow) (lookup : String → List Nat)
    (l : List String) (acc : List FileRow) :
    whlLoop pf lookup l acc
      = acc ++ (l.filter (fun m => !whlExcluded m)).map (fun m => pf m (lookup m)) := by
  induction l generalizing acc with
  | nil => simp [whlLoop]
  | cons m rest ih =>
    rw [whlLoop]
    by_cases h : whlExcluded m = true
    · rw [if_pos h, ih]
      simp [List.filter_cons, h]
    · rw [if_neg h, ih]
      simp only [Bool.not_eq_true] at h
      simp [List.filter_cons, h]

theorem crawlCommit_downloads (sha1 sha256 : List Nat → String) (db : DB)
    (project_name : String) (download : DownloadDict) (filename : String)
    (arch : ArchiveData) :
    (crawlCommit sha1 sha256 db project_name download filename arch).downloads
      = markIndexed db.downloads project_name download.name
          (crawlResult sha1 sha256 project_name download.name filename arch) := by
  unfold crawlCommit crawlResult
  cases process_archive sha1 sha256 project_name download.name filename arch with
  | error e => rfl
  | ok rs =>
    obtain ⟨r, s⟩ := rs
    rfl

theorem crawlCommit_files_ne (sha1 sha256 : List Nat → String) (db : DB)
    (project_name : String) (download : DownloadDict) (filename : String)
    (arch : ArchiveData)
    (hne : crawlResult sha1 sha256 project_name download.name filename arch ≠ "yes") :
    (crawlCommit sha1 sha256 db project_name download filename arch).files = db.files := by
  unfold crawlCommit
  unfold crawlResult at hne
  cases hpa : process_archive sha1 sha256 project_name download.name filename arch with
  | error e => rfl
  | ok rs =>
    obtain ⟨r, s⟩ := rs
    rw [hpa] at hne
    simp only [] at hne ⊢
    rw [if_neg hne]

/-! ## Claim theorems -/

/-- C6: for every readable byte stream — including streams shorter than one
4096-byte chunk and the empty stream — the content hasher's chunked loop in
process_file yields a byte count equal to the stream's length, and SHA-1 and
SHA-256 digests of exactly the whole stream content, i.e. the digests a
one-pass computation over the same bytes produces. -/
theorem c6_content_hasher (sha1 sha256 : List Nat → String)
    (download_name filename : String) (fp : List Nat) :
    (process_file sha1 sha256 download_name filename fp).size_bytes = fp.length ∧
    (process_file sha1 sha256 download_name filename fp).hash_sha1 = sha1 fp ∧
    (process_file sha1 sha256 download_name filename fp).hash_sha256 = sha256 fp := by
  simp [process_file, hashLoop_eq]

/-- C1 (code bug): the downloads SELECT at get_files.py lines 185-193 omits
the python_version column, so the dict handed to the priority loop never has
the 'python_version' key; every wheel takes the tag-absent branch (priority
5) and a cp-tagged wheel beats an sdist.  Under the claimed priority table —
visible in the selector's own (dead) py2/py3/cp branches — the cp wheel has
priority 1, the sdist 2, and the sdist must win. -/
theorem c1_selector_drops_python_version :
    pyMaxBy downloadPriority
        ([{ project_name := "p", project_version := "1.0", name := "w-1.0-cp27-any.whl"
            url := "uw", type := "bdist_wheel", python_version := some "cp27"
            indexed := none },
          { project_name := "p", project_version := "1.0", name := "w-1.0.tar.gz"
            url := "us", type := "sdist", python_version := none
            indexed := none }].map fetchDownloadDict)
      = some { name := "w-1.0-cp27-any.whl", url := "uw", type := "bdist_wheel"
               python_version := none } ∧
    downloadPriority { name := "w-1.0-cp27-any.whl", url := "uw", type := "bdist_wheel"
                       python_version := some "cp27" } = 1 ∧
    downloadPriority { name := "w-1.0.tar.gz", url := "us", type := "sdist"
                       python_version := none } = 2 ∧
    pyMaxBy downloadPriority
        [{ name := "w-1.0-cp27-any.whl", url := "uw", type := "bdist_wheel"
           python_version := some "cp27" },
         { name := "w-1.0.tar.gz", url := "us", type := "sdist"
           python_version := none }]
      = some { name := "w-1.0.tar.gz", url := "us", type := "sdist"
               python_version := none } := by
  decide

/-- C2: on every introspection outcome other than success — 'wrong
structure', 'bad archive', 'no files' — the crawl unit rolls the transaction
back, leaving the files table exactly as it was (so a download that had no
File rows still has none: the query returns the empty set), and the fresh
transaction records exactly the failure tag as the download's indexed
status. -/
theorem c2_failure_rolls_back (sha1 sha256 : List Nat → String) (db : DB)
    (project_name : String) (download : DownloadDict) (filename : String)
    (arch : ArchiveData)
    (hfail :
      crawlResult sha1 sha256 project_name download.name filename arch = "wrong structure"
      ∨ crawlResult sha1 sha256 project_name download.name filename arch = "bad archive"
      ∨ crawlResult sha1 sha256 project_name download.name filename arch = "no files") :
    (crawlCommit sha1 sha256 db project_name download filename arch).files = db.files ∧
    (crawlCommit sha1 sha256 db project_name download filename arch).downloads
      = markIndexed db.downloads project_name download.name
          (crawlResult sha1 sha256 project_name download.name filename arch) ∧
    (filesFor db download.name = [] →
      filesFor (crawlCommit sha1 sha256 db project_name download filename arch)
        download.name = []) := by
  have hne : crawlResult sha1 sha256 project_name download.name filename arch ≠ "yes" := by
    rcases hfail with h | h | h <;> rw [h] <;> decide
  have hfiles := crawlCommit_files_ne sha1 sha256 db project_name download filename arch hne
  refine ⟨hfiles, crawlCommit_downloads sha1 sha256 db project_name download filename arch, ?_⟩
  intro hempty
  rw [filesFor, hfiles, ← filesFor, hempty]

/-- C2 witness: an sdist zip for project "foo" whose first member stages one
file row and whose second member "bar" fails the top-level check: the
outcome is 'wrong structure', the staged row is rolled back, the files table
stays empty and the download's status becomes 'wrong structure'. -/
theorem c2_failure_rolls_back_witness :
    (crawlCommit (fun _ => "h1") (fun _ => "h2")
        { downloads := [{ project_name := "foo", project_version := "1.0"
                          name := "foo-1.0.zip", url := "u", type := "sdist"
                          python_version := none, indexed := none }]
          files := [], python_imports := [] }
        "foo" { name := "foo-1.0.zip", url := "u", type := "sdist", python_version := none }
        "foo-1.0.zip"
        (.zipData [{ name := "foo/a.py", content := [1] },
                   { name := "bar", content := [2] }])).files = [] ∧
    (crawlCommit (fun _ => "h1") (fun _ => "h2")
        { downloads := [{ project_name := "foo", project_version := "1.0"
                          name := "foo-1.0.zip", url := "u", type := "sdist"
                          python_version := none, indexed := none }]
          files := [], python_imports := [] }
        "foo" { name := "foo-1.0.zip", url := "u", type := "sdist", python_version := none }
        "foo-1.0.zip"
        (.zipData [{ name := "foo/a.py", content := [1] },
                   { name := "bar", content := [2] }])).downloads
      = [{ project_name := "foo", project_version := "1.0", name := "foo-1.0.zip"
           url := "u", type := "sdist", python_version := none
           indexed := some "wrong structure" }] := by
  have h := c2_failure_rolls_back (fun _ => "h1") (fun _ => "h2")
    { downloads := [{ project_name := "foo", project_version := "1.0"
                      name := "foo-1.0.zip", url := "u", type := "sdist"
                      python_version := none, indexed := none }]
      files := [], python_imports := [] }
    "foo" { name := "foo-1.0.zip", url := "u", type := "sdist", python_version := none }
    "foo-1.0.zip"
    (.zipData [{ name := "foo/a.py", content := [1] },
               { name := "bar", content := [2] }])
    (Or.inl (by decide))
  refine ⟨h.1, ?_⟩
  rw [h.2.1]
  decide

/-- C4: every container decode error — corrupt zip, corrupt tar, unexpected
end of stream — raised by introspection is caught by the crawl unit rather
than propagating: crawlCommit returns a store (total function, no exception
escapes) in which the files table is untouched and the download's status is
'bad archive'. -/
theorem c4_decode_error_caught (sha1 sha256 : List Nat → String) (db : DB)
    (project_name : String) (download : DownloadDict) (filename : String)
    (arch : ArchiveData) (e : DecodeErr)
    (herr : process_archive sha1 sha256 project_name download.name filename arch
      = .error e) :
    (crawlCommit sha1 sha256 db project_name download filename arch).files = db.files ∧
    (crawlCommit sha1 sha256 db project_name download filename arch).downloads
      = markIndexed db.downloads project_name download.name "bad archive" ∧
    (filesFor db download.name = [] →
      filesFor (crawlCommit sha1 sha256 db project_name download filename arch)
        download.name = []) := by
  have hres : crawlResult sha1 sha256 project_name download.name filename arch
      = "bad archive" := by
    unfold crawlResult
    rw [herr]
  have hne : crawlResult sha1 sha256 project_name download.name filename arch ≠ "yes" := by
    rw [hres]
    decide
  have hfiles := crawlCommit_files_ne sha1 sha256 db project_name download filename arch hne
  refine ⟨hfiles, ?_, ?_⟩
  · rw [crawlCommit_downloads sha1 sha256 db project_name download filename arch, hres]
  · intro hempty
    rw [filesFor, hfiles, ← filesFor, hempty]

/-- C4 witness: truncated gzip bytes (EOFError) under a `.tar.gz` name are
caught: status 'bad archive', no file rows, and crawlCommit returns. -/
theorem c4_decode_error_caught_witness :
    (crawlCommit (fun _ => "h1") (fun _ => "h2")
        { downloads := [{ project_name := "p", project_version := "1.0"
                          name := "p-1.0.tar.gz", url := "u", type := "sdist"
                          python_version := none, indexed := none }]
          files := [], python_imports := [] }
        "p" { name := "p-1.0.tar.gz", url := "u", type := "sdist", python_version := none }
        "p-1.0.tar.gz" (.corrupt .eofError)).files = [] ∧
    (crawlCommit (fun _ => "h1") (fun _ => "h2")
        { downloads := [{ project_name := "p", project_version := "1.0"
                          name := "p-1.0.tar.gz", url := "u", type := "sdist"
                          python_version := none, indexed := none }]
          files := [], python_imports := [] }
        "p" { name := "p-1.0.tar.gz", url := "u", type := "sdist", python_version := none }
        "p-1.0.tar.gz" (.corrupt .eofError)).downloads
      = [{ project_name := "p", project_version := "1.0", name := "p-1.0.tar.gz"
           url := "u", type := "sdist", python_version := none
           indexed := some "bad archive" }] := by
  have h := c4_decode_error_caught (fun _ => "h1") (fun _ => "h2")
    { downloads := [{ project_name := "p", project_version := "1.0"
                      name := "p-1.0.tar.gz", url := "u", type := "sdist"
                      python_version := none, indexed := none }]
      files := [], python_imports := [] }
    "p" { name := "p-1.0.tar.gz", url := "u", type := "sdist", python_version := none }
    "p-1.0.tar.gz" (.corrupt .eofError) .eofError (by decide)
  refine ⟨h.1, ?_⟩
  rw [h.2.1]
  decide

theorem markIndexed_mem (downloads : List DownloadRow) (project dn result : String)
    (r : DownloadRow) (hr : r ∈ downloads) (hp : r.project_name = project)
    (hn : r.name = dn) :
    { r with indexed := some result } ∈ markIndexed downloads project dn result := by
  unfold markIndexed
  refine List.mem_map.mpr ⟨r, hr, ?_⟩
  simp [hp, hn]

theorem process_versions_skip (sha1 sha256 : List Nat → String) (key : String → Nat)
    (fetch : String → ArchiveData) (project_name : String) (versions : List String)
    (db : DB) (h : isIndexed db project_name (latest_version key versions) = true) :
    process_versions sha1 sha256 key fetch project_name versions db = db := by
  simp only [process_versions]
  rw [if_pos h]

theorem process_versions_cases (sha1 sha256 : List Nat → String) (key : String → Nat)
    (fetch : String → ArchiveData) (project_name : String) (versions : List String)
    (db : DB) :
    process_versions sha1 sha256 key fetch project_name versions db = db
    ∨ isIndexed (process_versions sha1 sha256 key fetch project_name versions db)
        project_name (latest_version key versions) = true := by
  by_cases hany : isIndexed db project_name (latest_version key versions) = true
  · exact Or.inl (process_versions_skip sha1 sha256 key fetch project_name versions db hany)
  · cases hmax : pyMaxBy downloadPriority
        (listDownloads db project_name (latest_version key versions)) with
    | none =>
      left
      simp only [process_versions]
      rw [if_neg hany, hmax]
    | some download =>
      right
      have hpv : process_versions sha1 sha256 key fetch project_name versions db
          = crawlCommit sha1 sha256 db project_name download
              (secure_filename download.name) (fetch download.url) := by
        simp only [process_versions]
        rw [if_neg hany, hmax]
      obtain ⟨r, hr_mem, hr_eq⟩ := List.mem_map.mp
        (pyMaxBy_mem _ _ _ hmax :
          download ∈ (db.downloads.filter (fun d =>
            d.project_name = project_name
              && d.project_version = latest_version key versions)).map fetchDownloadDict)
      rw [List.mem_filter] at hr_mem
      obtain ⟨hr_db, hr_cond⟩ := hr_mem
      simp only [Bool.and_eq_true, decide_eq_true_eq] at hr_cond
      rw [hpv]
      unfold isIndexed
      rw [List.any_eq_true]
      refine ⟨{ r with indexed := some (crawlResult sha1 sha256 project_name download.name
        (secure_filename download.name) (fetch download.url)) }, ?_, ?_⟩
      · rw [crawlCommit_downloads]
        exact markIndexed_mem _ _ _ _ r hr_db hr_cond.1 (by rw [← hr_eq]; rfl)
      · simp [hr_cond.1, hr_cond.2]

/-- C3: the version crawl unit is idempotent.  First, when some download of
(project, latest version) already has a non-null indexed status, the unit
performs zero writes: the store is returned unchanged.  Second, running the
unit twice on the same project and versions with no intervening change makes
the second run a no-op: whatever the first run did, it either wrote nothing
or left a download of (project, latest version) with a non-null status, and
the second run skips. -/
theorem c3_idempotent (sha1 sha256 : List Nat → String) (key : String → Nat)
    (fetch : String → ArchiveData) (project_name : String) (versions : List String)
    (db : DB) :
    (isIndexed db project_name (latest_version key versions) = true →
      process_versions sha1 sha256 key fetch project_name versions db = db) ∧
    process_versions sha1 sha256 key fetch project_name versions
        (process_versions sha1 sha256 key fetch project_name versions db)
      = process_versions sha1 sha256 key fetch project_name versions db := by
  refine ⟨process_versions_skip sha1 sha256 key fetch project_name versions db, ?_⟩
  rcases process_versions_cases sha1 sha256 key fetch project_name versions db with h | h
  · rw [h]
    exact h
  · exact process_versions_skip sha1 sha256 key fetch project_name versions
      (process_versions sha1 sha256 key fetch project_name versions db) h

/-- C3 witness: a store whose only download of ("p", "1.0") is already
indexed ('yes'): the crawl unit returns it unchanged, and a second run atop
a first run is a no-op. -/
theorem c3_idempotent_witness :
    process_versions (fun _ => "h1") (fun _ => "h2") (fun _ => 0)
        (fun _ => ArchiveData.corrupt .eofError) "p" ["1.0"]
        { downloads := [{ project_name := "p", project_version := "1.0"
                          name := "p-1.0.tar.gz", url := "u", type := "sdist"
                          python_version := none, indexed := some "yes" }]
          files := [], python_imports := [] }
      = { downloads := [{ project_name := "p", project_version := "1.0"
                          name := "p-1.0.tar.gz", url := "u", type := "sdist"
                          python_version := none, indexed := some "yes" }]
          files := [], python_imports := [] } :=
  (c3_idempotent (fun _ => "h1") (fun _ => "h2") (fun _ => 0)
    (fun _ => ArchiveData.corrupt .eofError) "p" ["1.0"]
    { downloads := [{ project_name := "p", project_version := "1.0"
                      name := "p-1.0.tar.gz", url := "u", type := "sdist"
                      python_version := none, indexed := some "yes" }]
      files := [], python_imports := [] }).1 (by decide)

/-- C7: in flat-zip (wheel/egg) mode the introspector processes exactly the
deduplicated member names surviving the filter — path not containing
'.dist-info/', not starting with 'EGG-INFO', not ending with '.dist-info',
and not exactly PKG-INFO / MANIFEST.in / setup.cfg — recording each
surviving member under its full unstripped path; the outcome is 'no files'
exactly when the filter leaves zero members, and 'yes' otherwise. -/
theorem c7_flat_zip_filter (sha1 sha256 : List Nat → String)
    (project_name download_name filename : String) (ms : List ZipMember)
    (hmode : (strEndsWith filename ".whl" || strEndsWith filename ".egg") = true) :
    process_archive sha1 sha256 project_name download_name filename (.zipData ms)
      = .ok
        (if (pyDedup (ms.map (fun m => m.name))).filter (fun m => !whlExcluded m) = []
            then "no files" else "yes",
          ((pyDedup (ms.map (fun m => m.name))).filter (fun m => !whlExcluded m)).map
            (fun m => process_file sha1 sha256 download_name m (zipLookup ms m))) := by
  simp only [process_archive]
  rw [if_pos hmode, whlLoop_eq]
  simp only [List.nil_append, wrapResult, List.length_map, List.length_eq_zero]

/-- C7 witness: a wheel whose members are all under `*.dist-info/` yields
'no files' with zero staged rows. -/
theorem c7_flat_zip_filter_witness :
    process_archive (fun _ => "h1") (fun _ => "h2") "pkg" "pkg-1.0-py3-none-any.whl"
        "pkg-1.0-py3-none-any.whl"
        (.zipData [{ name := "pkg-1.0.dist-info/METADATA", content := [1] },
                   { name := "pkg-1.0.dist-info/RECORD", content := [2] }])
      = .ok ("no files", []) := by
  have h := c7_flat_zip_filter (fun _ => "h1") (fun _ => "h2") "pkg"
    "pkg-1.0-py3-none-any.whl" "pkg-1.0-py3-none-any.whl"
    [{ name := "pkg-1.0.dist-info/METADATA", content := [1] },
     { name := "pkg-1.0.dist-info/RECORD", content := [2] }] (by decide)
  rw [h]
  decide

theorem bool_not_of_ne (b : Bool) (h : ¬b = true) : (!b) = true := by
  rw [Bool.not_eq_true] at h
  simp [h]

theorem sdistZipLoop_offender (pf : String → List Nat → FileRow)
    (lookup : String → List Nat) (project : String) (l : List String)
    (acc : List FileRow) (h : ∃ m ∈ l, zipOffender project m = true) :
    (sdistZipLoop pf lookup project l acc).1 = some "wrong structure" := by
  induction l generalizing acc with
  | nil =>
    obtain ⟨m, hm, _⟩ := h
    cases hm
  | cons x rest ih =>
    obtain ⟨m, hm, hoff⟩ := h
    rw [sdistZipLoop]
    rcases List.mem_cons.mp hm with rfl | hm'
    · simp only [zipOffender, Bool.and_eq_true, Bool.or_eq_true, Bool.not_eq_true',
        Option.isNone_iff_eq_none] at hoff
      obtain ⟨hdir, hrest⟩ := hoff
      rw [if_neg (by simp [hdir])]
      rcases hrest with htop | ⟨hskip, hslash⟩
      · rw [if_pos (by simp [htop])]
      · by_cases htop : check_top_level m project = true
        · rw [if_neg (by simp [htop]), if_neg (by simp [hskip]), hslash]
        · rw [if_pos (bool_not_of_ne _ htop)]
    · by_cases h1 : strEndsWith x "/" = true
      · rw [if_pos h1]
        exact ih _ ⟨m, hm', hoff⟩
      · rw [if_neg h1]
        by_cases h2 : check_top_level x project = true
        · rw [if_neg (by simp [h2])]
          by_cases h3 : zipSkipMember x = true
          · rw [if_pos h3]
            exact ih _ ⟨m, hm', hoff⟩
          · rw [if_neg h3]
            split
            · rfl
            · rename_i name h4
              by_cases h5 : IGNORED_FILES.contains name = true
              · rw [if_pos h5]
                exact ih _ ⟨m, hm', hoff⟩
              · rw [if_neg h5]
                exact ih _ ⟨m, hm', hoff⟩
        · rw [if_pos (bool_not_of_ne _ h2)]

theorem tarLoop_offender (pf : String → List Nat → FileRow) (project : String)
    (l : List TarMember) (acc : List FileRow)
    (h : ∃ m ∈ l, tarOffender project m = true) :
    (tarLoop pf project l acc).1 = some "wrong structure" := by
  induction l generalizing acc with
  | nil =>
    obtain ⟨m, hm, _⟩ := h
    cases hm
  | cons x rest ih =>
    obtain ⟨m, hm, hoff⟩ := h
    rw [tarLoop]
    rcases List.mem_cons.mp hm with rfl | hm'
    · simp only [tarOffender, Bool.and_eq_true, Bool.or_eq_true, Bool.not_eq_true',
        Option.isNone_iff_eq_none] at hoff
      obtain ⟨hfile, hrest⟩ := hoff
      rw [if_neg (by simp [hfile])]
      rcases hrest with htop | ⟨hskip, hslash⟩
      · rw [if_pos (by simp [htop])]
      · by_cases htop : check_top_level m.name project = true
        · rw [if_neg (by simp [htop]), if_neg (by simp [hskip]), hslash]
        · rw [if_pos (bool_not_of_ne _ htop)]
    · by_cases h1 : x.isfile = true
      · rw [if_neg (by simp [h1])]
        by_cases h2 : check_top_level x.name project = true
        · rw [if_neg (by simp [h2])]
          by_cases h3 : tarSkipMember x.name = true
          · rw [if_pos h3]
            exact ih _ ⟨m, hm', hoff⟩
          · rw [if_neg h3]
            split
            · rfl
            · rename_i name h4
              by_cases h5 : IGNORED_FILES.contains name = true
              · rw [if_pos h5]
                exact ih _ ⟨m, hm', hoff⟩
              · rw [if_neg h5]
                exact ih _ ⟨m, hm', hoff⟩
        · rw [if_pos (bool_not_of_ne _ h2)]
      · rw [if_pos (bool_not_of_ne _ h1)]
        exact ih _ ⟨m, hm', hoff⟩

theorem wrapResult_fst_some (p : Option String × List FileRow) (r : String)
    (h : p.1 = some r) : (wrapResult p).1 = r := by
  obtain ⟨o, staged⟩ := p
  have ho : o = some r := h
  subst ho
  rfl

/-- C8 counterexample: in sdist-zip mode, for project "foo" the archive's
only member "foo.egg-info" is a non-directory member whose path contains no
'/' separator, yet the archive is not aborted as 'wrong structure': the
egg-info/ignored skip (lines 98-103) runs before the separator check
(lines 104-112), so the member is skipped and the outcome is 'no files'. -/
theorem c8_no_slash_counterexample :
    strEndsWith "foo.egg-info" "/" = false ∧
    check_top_level "foo.egg-info" "foo" = true ∧
    dropThroughSlash "foo.egg-info" = none ∧
    process_archive (fun _ => "h1") (fun _ => "h2") "foo" "foo-1.0.zip" "foo-1.0.zip"
        (.zipData [{ name := "foo.egg-info", content := [0] }])
      = .ok ("no files", []) := by
  decide

/-- C8 amended: in sdist-zip and tarball modes, the introspector aborts the
whole archive as 'wrong structure' — and the crawl unit then persists zero
File rows — whenever some (deduplicated) non-directory member fails the
normalized top-level-prefix check, or some non-directory member that is NOT
skipped by the egg-info/ignored-filename filter (which runs first) has no
'/' separator. -/
theorem c8_wrong_structure_amended (sha1 sha256 : List Nat → String) :
    (∀ (project_name : String) (download : DownloadDict) (filename : String)
        (ms : List ZipMember) (db : DB),
      (strEndsWith filename ".whl" || strEndsWith filename ".egg") = false →
      strEndsWith filename ".zip" = true →
      (∃ m ∈ pyDedup (ms.map (fun zm => zm.name)), zipOffender project_name m = true) →
      crawlResult sha1 sha256 project_name download.name filename (.zipData ms)
          = "wrong structure"
        ∧ (crawlCommit sha1 sha256 db project_name download filename (.zipData ms)).files
          = db.files) ∧
    (∀ (project_name : String) (download : DownloadDict) (filename : String)
        (tms : List TarMember) (db : DB),
      (strEndsWith filename ".whl" || strEndsWith filename ".egg") = false →
      strEndsWith filename ".zip" = false →
      (∃ m ∈ tarDedup tms, tarOffender project_name m = true) →
      crawlResult sha1 sha256 project_name download.name filename (.tarData tms)
          = "wrong structure"
        ∧ (crawlCommit sha1 sha256 db project_name download filename (.tarData tms)).files
          = db.files) := by
  constructor
  · intro project_name download filename ms db hmode1 hmode2 hoff
    have hloop := sdistZipLoop_offender (process_file sha1 sha256 download.name)
      (zipLookup ms) project_name (pyDedup (ms.map (fun zm => zm.name))) [] hoff
    have hpro : process_archive sha1 sha256 project_name download.name filename
        (.zipData ms)
        = .ok (wrapResult (sdistZipLoop (process_file sha1 sha256 download.name)
            (zipLookup ms) project_name (pyDedup (ms.map (fun zm => zm.name))) [])) := by
      simp only [process_archive]
      rw [if_neg (by simp [hmode1]), if_pos hmode2]
    have hres : crawlResult sha1 sha256 project_name download.name filename
        (.zipData ms) = "wrong structure" := by
      unfold crawlResult
      rw [hpro]
      exact wrapResult_fst_some _ _ hloop
    exact ⟨hres, crawlCommit_files_ne sha1 sha256 db project_name download filename
      (.zipData ms) (by rw [hres]; decide)⟩
  · intro project_name download filename tms db hmode1 hmode2 hoff
    have hloop := tarLoop_offender (process_file sha1 sha256 download.name)
      project_name (tarDedup tms) [] hoff
    have hpro : process_archive sha1 sha256 project_name download.name filename
        (.tarData tms)
        = .ok (wrapResult (tarLoop (process_file sha1 sha256 download.name)
            project_name (tarDedup tms) [])) := by
      simp only [process_archive]
      rw [if_neg (by simp [hmode1]), if_neg (by simp [hmode2])]
    have hres : crawlResult sha1 sha256 project_name download.name filename
        (.tarData tms) = "wrong structure" := by
      unfold crawlResult
      rw [hpro]
      exact wrapResult_fst_some _ _ hloop
    exact ⟨hres, crawlCommit_files_ne sha1 sha256 db project_name download filename
      (.tarData tms) (by rw [hres]; decide)⟩

/-- C8 amended witness: an sdist zip and a tarball of project "foo", each
with the single non-directory member "bar" failing the top-level check, both
yield 'wrong structure' and leave the files table unchanged. -/
theorem c8_wrong_structure_amended_witness :
    (crawlResult (fun _ => "h1") (fun _ => "h2") "foo" "foo-1.0.zip" "foo-1.0.zip"
        (.zipData [{ name := "bar", content := [0] }]) = "wrong structure"
      ∧ (crawlCommit (fun _ => "h1") (fun _ => "h2")
          { downloads := [], files := [], python_imports := [] } "foo"
          { name := "foo-1.0.zip", url := "u", type := "sdist", python_version := none }
          "foo-1.0.zip" (.zipData [{ name := "bar", content := [0] }])).files = []) ∧
    (crawlResult (fun _ => "h1") (fun _ => "h2") "foo" "foo-1.0.tar.gz" "foo-1.0.tar.gz"
        (.tarData [{ name := "bar", isfile := true, content := [] }]) = "wrong structure"
      ∧ (crawlCommit (fun _ => "h1") (fun _ => "h2")
          { downloads := [], files := [], python_imports := [] } "foo"
          { name := "foo-1.0.tar.gz", url := "u", type := "sdist", python_version := none }
          "foo-1.0.tar.gz"
          (.tarData [{ name := "bar", isfile := true, content := [] }])).files = []) :=
  ⟨(c8_wrong_structure_amended (fun _ => "h1") (fun _ => "h2")).1 "foo"
      { name := "foo-1.0.zip", url := "u", type := "sdist", python_version := none }
      "foo-1.0.zip" [{ name := "bar", content := [0] }]
      { downloads := [], files := [], python_imports := [] }
      (by decide) (by decide) ⟨"bar", by decide, by decide⟩,
    (c8_wrong_structure_amended (fun _ => "h1") (fun _ => "h2")).2 "foo"
      { name := "foo-1.0.tar.gz", url := "u", type := "sdist", python_version := none }
      "foo-1.0.tar.gz" [{ name := "bar", isfile := true, content := [] }]
      { downloads := [], files := [], python_imports := [] }
      (by decide) (by decide)
      ⟨{ name := "bar", isfile := true, content := [] }, by decide, by decide⟩⟩

/-- C9: over a successfully indexed download of the project's latest
version (and with no prior guess for that version, so the run is not
skipped), the import guesser replaces the project's ImportGuess rows in one
transaction: every prior row of the project is deleted, and the new rows are
exactly the guess set derived from the download's file names — one row per
unique derived name, or a single empty-path sentinel row when the set is
empty.  The derivation rule on the claim's examples: files mypkg/__init__.py,
mypkg/util.py, setup.py yield exactly the set containing mypkg; files
setup.py, tests.py yield the empty set (hence a sentinel row). -/
theorem c9_import_guesser (key : String → Nat) (project_name : String)
    (versions : List String) (db : DB) (download : DownloadRow)
    (hprev : prevImportRows db project_name (latest_version key versions) = [])
    (hdl : guessDownload db project_name (latest_version key versions) = some download) :
    ((guess_process_versions key project_name versions db).python_imports
      = db.python_imports.filter (fun r => r.project_name ≠ project_name)
        ++ (if import_names ((db.files.filter
                (fun f => f.download_name = download.name)).map (fun f => f.name)) ≠ []
            then (import_names ((db.files.filter
                (fun f => f.download_name = download.name)).map (fun f => f.name))).map
              (fun n => { project_name := project_name
                          deduced_from_project_version := latest_version key versions
                          deduced_from_download_name := download.name
                          import_path := n })
            else [{ project_name := project_name
                    deduced_from_project_version := latest_version key versions
                    deduced_from_download_name := download.name
                    import_path := "" }])) ∧
    import_names ["mypkg/__init__.py", "mypkg/util.py", "setup.py"] = ["mypkg"] ∧
    import_names ["setup.py", "tests.py"] = [] := by
  refine ⟨?_, by decide, by decide⟩
  simp only [guess_process_versions]
  rw [if_neg (by simp [hprev]), hdl]

/-- C9 witness: concrete store with one indexed download holding
mypkg/__init__.py, mypkg/util.py and setup.py: after the run the project's
rows are exactly one row with import path mypkg. -/
theorem c9_import_guesser_witness :
    (guess_process_versions (fun _ => 0) "mypkg" ["1.0"]
        { downloads := [{ project_name := "mypkg", project_version := "1.0"
                          name := "mypkg-1.0.tar.gz", url := "u", type := "sdist"
                          python_version := none, indexed := some "yes" }]
          files := [{ download_name := "mypkg-1.0.tar.gz", name := "mypkg/__init__.py"
                      size_bytes := 0, hash_sha1 := "h", hash_sha256 := "h" },
                    { download_name := "mypkg-1.0.tar.gz", name := "mypkg/util.py"
                      size_bytes := 0, hash_sha1 := "h", hash_sha256 := "h" },
                    { download_name := "mypkg-1.0.tar.gz", name := "setup.py"
                      size_bytes := 0, hash_sha1 := "h", hash_sha256 := "h" }]
          python_imports := [] }).python_imports
      = [{ project_name := "mypkg", deduced_from_project_version := "1.0"
           deduced_from_download_name := "mypkg-1.0.tar.gz", import_path := "mypkg" }] := by
  have h := (c9_import_guesser (fun _ => 0) "mypkg" ["1.0"]
    { downloads := [{ project_name := "mypkg", project_version := "1.0"
                      name := "mypkg-1.0.tar.gz", url := "u", type := "sdist"
                      python_version := none, indexed := some "yes" }]
      files := [{ download_name := "mypkg-1.0.tar.gz", name := "mypkg/__init__.py"
                  size_bytes := 0, hash_sha1 := "h", hash_sha256 := "h" },
                { download_name := "mypkg-1.0.tar.gz", name := "mypkg/util.py"
                  size_bytes := 0, hash_sha1 := "h", hash_sha256 := "h" },
                { download_name := "mypkg-1.0.tar.gz", name := "setup.py"
                  size_bytes := 0, hash_sha1 := "h", hash_sha256 := "h" }]
      python_imports := [] }
    { project_name := "mypkg", project_version := "1.0"
      name := "mypkg-1.0.tar.gz", url := "u", type := "sdist"
      python_version := none, indexed := some "yes" }
    (by decide) (by decide)).1
  rw [h]
  decide

/-- C10: invariant kept by each import-guesser run: the run either touches
no ImportGuess row at all (the skip and no-download paths), or afterwards
every two ImportGuess rows of the project carry the same deduced-from
version and the same deduced-from download — the delete step removed every
prior row of the project and the insert step used one (version, download)
pair for all rows. -/
theorem c10_guess_rows_uniform (key : String → Nat) (project_name : String)
    (versions : List String) (db : DB) :
    (guess_process_versions key project_name versions db).python_imports
        = db.python_imports
    ∨ ∀ r ∈ guessRowsFor (guess_process_versions key project_name versions db)
          project_name,
        ∀ r' ∈ guessRowsFor (guess_process_versions key project_name versions db)
          project_name,
        r.deduced_from_project_version = r'.deduced_from_project_version
          ∧ r.deduced_from_download_name = r'.deduced_from_download_name := by
  by_cases hprev : prevImportRows db project_name (latest_version key versions) ≠ []
  · left
    simp only [guess_process_versions]
    rw [if_pos hprev]
  · cases hdl : guessDownload db project_name (latest_version key versions) with
    | none =>
      left
      simp only [guess_process_versions]
      rw [if_neg hprev, hdl]
    | some download =>
      right
      have huni : ∀ s ∈ guessRowsFor
          (guess_process_versions key project_name versions db) project_name,
          s.deduced_from_project_version = latest_version key versions
            ∧ s.deduced_from_download_name = download.name := by
        intro s hs
        simp only [guess_process_versions] at hs
        rw [if_neg hprev, hdl] at hs
        simp only [guessRowsFor, List.mem_filter, List.mem_append,
          decide_eq_true_eq] at hs
        obtain ⟨hmem | hmem, hproj⟩ := hs
        · exact absurd hproj hmem.2
        · by_cases hn : import_names ((db.files.filter
              (fun f => f.download_name = download.name)).map (fun f => f.name)) ≠ []
          · rw [if_pos hn] at hmem
            obtain ⟨n, _, rfl⟩ := List.mem_map.mp hmem
            exact ⟨rfl, rfl⟩
          · rw [if_neg hn] at hmem
            rw [List.mem_singleton] at hmem
            subst hmem
            exact ⟨rfl, rfl⟩
      intro r hr r' hr'
      obtain ⟨h1, h2⟩ := huni r hr
      obtain ⟨h1', h2'⟩ := huni r' hr'
      exact ⟨h1.trans h1'.symm, h2.trans h2'.symm⟩

/-- C10 witness: on a store where the guess set is a-from-a.py and
b-from-b/c.py, both resulting rows carry the same deduced-from pair; the
theorem's write branch applies (the no-write branch is refuted by
evaluation). -/
theorem c10_guess_rows_uniform_witness :
    ({ project_name := "mypkg", deduced_from_project_version := "1.0"
       deduced_from_download_name := "d", import_path := "a" } :
        ImportRow).deduced_from_project_version
      = ({ project_name := "mypkg", deduced_from_project_version := "1.0"
           deduced_from_download_name := "d", import_path := "b" } :
          ImportRow).deduced_from_project_version := by
  rcases c10_guess_rows_uniform (fun _ => 0) "mypkg" ["1.0"]
    { downloads := [{ project_name := "mypkg", project_version := "1.0"
                      name := "d", url := "u", type := "sdist"
                      python_version := none, indexed := some "yes" }]
      files := [{ download_name := "d", name := "a.py"
                  size_bytes := 0, hash_sha1 := "h", hash_sha256 := "h" },
                { download_name := "d", name := "b/c.py"
                  size_bytes := 0, hash_sha1 := "h", hash_sha256 := "h" }]
      python_imports := [] } with h | h
  · exact absurd h (by decide)
  · exact (h { project_name := "mypkg", deduced_from_project_version := "1.0"
               deduced_from_download_name := "d", import_path := "a" } (by decide)
             { project_name := "mypkg", deduced_from_project_version := "1.0"
               deduced_from_download_name := "d", import_path := "b" } (by decide)).1

/-- C5 counterexample: five pending units whose outcomes arrive in order
with unit 2 permanently failed (retries exhausted): when the scheduler
polls that task, task.result() re-raises and amain aborts — the remaining
units are never recorded, so the run does not end with the other four units
recorded, contradicting the claim that all other units still run to
completion and are recorded. -/
theorem c5_scheduler_abort_counterexample :
    schedulerPoll [Except.ok (), Except.error (), Except.ok (), Except.ok (),
        Except.ok ()]
      = Except.error () ∧
    schedulerPoll [Except.ok (), Except.error (), Except.ok (), Except.ok (),
        Except.ok ()]
      ≠ Except.ok 4 := by
  decide

/-- C5 amended: a crawl unit wrapped in @retry(3, logger) is attempted up to
three times with a delay between attempts; the first two failures are
caught and logged, and when every attempt raises, the third call's outcome
— its exception — propagates unguarded.  The scheduler polls completed
tasks with task.result(), which re-raises the first observed failure and
aborts the whole scheduling loop: units polled before it are recorded,
units after it are not. -/
theorem c5_retry_propagates_amended {E A : Type} (attempt : Nat → Except E A)
    (e0 e1 : E) (h0 : attempt 0 = Except.error e0) (h1 : attempt 1 = Except.error e1) :
    retryCall 3 attempt = attempt 2 ∧
    ∀ (pre post : List (Except E Unit)) (e : E),
      (∀ x ∈ pre, ∃ u, x = Except.ok u) →
      schedulerPoll (pre ++ Except.error e :: post) = Except.error e := by
  constructor
  · have s1 : retryGo attempt 0 2 = retryGo attempt 1 1 := by
      show (match attempt 0 with
        | .ok a => (.ok a : Except E A)
        | .error _ => retryGo attempt 1 1) = retryGo attempt 1 1
      rw [h0]
    have s2 : retryGo attempt 1 1 = retryGo attempt 2 0 := by
      show (match attempt 1 with
        | .ok a => (.ok a : Except E A)
        | .error _ => retryGo attempt 2 0) = retryGo attempt 2 0
      rw [h1]
    exact (s1.trans s2).trans rfl
  · intro pre post e
    induction pre with
    | nil =>
      intro _
      rfl
    | cons x xs ih =>
      intro hpre
      obtain ⟨u, rfl⟩ := hpre x (List.mem_cons_self x xs)
      show (match schedulerPoll (xs ++ Except.error e :: post) with
        | .ok n => (.ok (n + 1) : Except E Nat)
        | .error e => .error e) = Except.error e
      rw [ih (fun y hy => hpre y (List.mem_cons_of_mem _ hy))]

/-- C5 amended witness: an always-failing unit's third attempt propagates,
and a scheduler that observes ok, error 5, ok aborts with error 5. -/
theorem c5_retry_propagates_amended_witness :
    retryCall 3 (fun i => (Except.error i : Except Nat Nat)) = Except.error 2 ∧
    schedulerPoll [Except.ok (), (Except.error 5 : Except Nat Unit), Except.ok ()]
      = Except.error 5 := by
  have h := c5_retry_propagates_amended (fun i => (Except.error i : Except Nat Nat))
    0 1 rfl rfl
  exact ⟨h.1, h.2 [Except.ok ()] [Except.ok ()] 5
    (fun x hx => ⟨(), List.mem_singleton.mp hx⟩)⟩

end FilesDB
